import Mathlib

/-!
Shallow embedding of the `safe-transmute` crate's core (files `base.rs`,
`align.rs`, `to_bytes.rs`, `util.rs`) and proofs about it.

Modelling conventions:
* A byte buffer is a `List Nat` of its byte values; a value of an element
  type `T` with `size_of::<T>() = S` is identified with its bit pattern,
  i.e. the list of its `S` bytes.
* An owned vector (`Vec<u8>` / `Vec<T>`) is `RustVec`: the address of its
  backing allocation (`ptr`), its initialized contents (`data`, whose list
  length is the Rust `len`), and its `cap`.  Reuse of the backing
  allocation by the zero-copy conversions is modelled as preservation of
  `ptr`.
* `usize` arithmetic that cannot underflow or overflow under the stated
  hypotheses is modelled on `Nat`.
* Guard checks are pure functions of the element size and the byte count
  (the crate's guards never inspect buffer contents).
-/

namespace SafeTransmute

/-- Modelled from the spec: the reason tag of a guard rejection
(`error.rs` is not among the provided sources; §7 of the spec and the
crate's tests name "not enough bytes" and "excess bytes" rejections). -/
inductive ErrorReason where
  | NotEnoughBytes
  | TooManyBytes
deriving DecidableEq, Repr

/-- Modelled from the spec: a guard rejection diagnostic carrying the
required and actual byte counts (`error.rs` missing from the sources). -/
structure GuardError where
  required : Nat
  actual : Nat
  reason : ErrorReason
deriving DecidableEq, Repr

/-- `UnalignedError` of `align.rs`: carries the number of leading bytes to
discard from the front to make the conversion alignment-safe. -/
structure UnalignedError where
  offset : Nat
deriving DecidableEq, Repr

/-- Modelled from the spec: the error tagged union (`error.rs` missing
from the sources): guard rejection, unaligned start address (with discard
count), or invalid value. -/
inductive Error where
  | Guard (g : GuardError)
  | Unaligned (offset : Nat)
  | InvalidValue
deriving DecidableEq, Repr

/-- A byte buffer: the list of its byte values. -/
abbrev Bytes := List Nat

instance instDecidableEqExcept {ε α : Type} [DecidableEq ε] [DecidableEq α] :
    DecidableEq (Except ε α)
  | .ok x, .ok y =>
    if h : x = y then .isTrue (by rw [h]) else
      .isFalse (by intro hc; cases hc; exact h rfl)
  | .error x, .error y =>
    if h : x = y then .isTrue (by rw [h]) else
      .isFalse (by intro hc; cases hc; exact h rfl)
  | .ok x, .error y => .isFalse (by intro hc; cases hc)
  | .error x, .ok y => .isFalse (by intro hc; cases hc)

/-- Modelled from the spec (`guard.rs` missing from the sources):
`PermissiveGuard::check` always accepts ("always accepts; ... Never
fails", a no-op). -/
def PermissiveGuard.check (S len : Nat) : Except Error Unit :=
  .ok ()

/-- Modelled from the spec (`guard.rs` missing from the sources):
`SingleManyGuard::check` accepts iff the byte count is at least one
element size, rejecting with "not enough bytes" (required = one element
size, actual = available bytes) otherwise. -/
def SingleManyGuard.check (S len : Nat) : Except Error Unit :=
  if len < S then .error (.Guard ⟨S, len, .NotEnoughBytes⟩) else .ok ()

/-- Modelled from the spec (`guard.rs` missing from the sources):
`SingleValueGuard::check` accepts iff the byte count is exactly one
element size, rejecting with "not enough bytes" or "excess bytes". -/
def SingleValueGuard.check (S len : Nat) : Except Error Unit :=
  if len < S then .error (.Guard ⟨S, len, .NotEnoughBytes⟩)
  else if S < len then .error (.Guard ⟨S, len, .TooManyBytes⟩)
  else .ok ()

/-- Fuel-indexed helper for `chunksOf`; the fuel only serves structural
recursion and any fuel `≥ l.length` gives the same result. -/
def chunksOfAux (S : Nat) : Nat → Bytes → List Bytes
  | 0, _ => []
  | fuel + 1, l =>
    if 0 < S ∧ S ≤ l.length then l.take S :: chunksOfAux S fuel (l.drop S) else []

/-- Reading memory as consecutive elements of size `S`: the view of a byte
buffer as `l.length / S` elements, the `i`-th being bytes
`[i*S, (i+1)*S)`.  This is the semantics of
`slice::from_raw_parts(ptr as *const T, len / size_of::<T>())` over the
buffer's bytes. -/
def chunksOf (S : Nat) (l : Bytes) : List Bytes :=
  chunksOfAux S l.length l

/-- `from_bytes` of `base.rs`: apply `SingleManyGuard`, then read one
value of size `S` from the leading bytes. -/
def from_bytes (S : Nat) (bytes : Bytes) : Except Error Bytes :=
  match SingleManyGuard.check S bytes.length with
  | .error e => .error e
  | .ok _ => .ok (bytes.take S)

/-- `from_bytes_pedantic` of `base.rs`: apply `SingleValueGuard`, then
read one value of size `S` from the leading bytes. -/
def from_bytes_pedantic (S : Nat) (bytes : Bytes) : Except Error Bytes :=
  match SingleValueGuard.check S bytes.length with
  | .error e => .error e
  | .ok _ => .ok (bytes.take S)

/-- `transmute_many` of `base.rs`: apply the guard `check` to the byte
count, then view the buffer as `len / S` elements of size `S`.  The guard
of the generic `G: Guard` parameter is passed as a function of the element
size and byte count. -/
def transmute_many (S : Nat) (check : Nat → Nat → Except Error Unit) (bytes : Bytes) :
    Except Error (List Bytes) :=
  match check S bytes.length with
  | .error e => .error e
  | .ok _ => .ok (chunksOf S bytes)

/-- `transmute_many_permissive` of `base.rs`: `transmute_many` with the
permissive guard; the `expect` branch (reached only if the permissive
guard failed) is modelled as the empty slice. -/
def transmute_many_permissive (S : Nat) (bytes : Bytes) : List Bytes :=
  match transmute_many S PermissiveGuard.check bytes with
  | .ok v => v
  | .error _ => []

/-- An owned Rust vector: address of the backing allocation, initialized
contents (`data.length` is the Rust `len`), and capacity. -/
structure RustVec (α : Type) where
  ptr : Nat
  data : List α
  cap : Nat
deriving DecidableEq, Repr

/-- `transmute_vec` of `base.rs`: apply the guard to the byte length; on
acceptance hand the same allocation to a new vector with
`len = bytes.len() / S` elements (the leading chunks of the bytes) and
`capacity = bytes.capacity() / S`. -/
def transmute_vec (S : Nat) (check : Nat → Nat → Except Error Unit) (bytes : RustVec Nat) :
    Except Error (RustVec Bytes) :=
  match check S bytes.data.length with
  | .error e => .error e
  | .ok _ => .ok ⟨bytes.ptr, chunksOf S bytes.data, bytes.cap / S⟩

/-- `transmute_vec_permissive` of `base.rs`: `transmute_vec` with the
permissive guard; the `expect` branch is modelled as an empty vector. -/
def transmute_vec_permissive (S : Nat) (bytes : RustVec Nat) : RustVec Bytes :=
  match transmute_vec S PermissiveGuard.check bytes with
  | .ok v => v
  | .error _ => ⟨bytes.ptr, [], 0⟩

/-- `transmute_to_bytes_unchecked` of `to_bytes.rs`: the byte view of a
single value is its bit pattern (which is how values are modelled). -/
def transmute_to_bytes_unchecked (v : Bytes) : Bytes :=
  v

/-- `transmute_one_to_bytes` of `to_bytes.rs`: the safe wrapper around
`transmute_to_bytes_unchecked` for POD types. -/
def transmute_one_to_bytes (v : Bytes) : Bytes :=
  transmute_to_bytes_unchecked v

/-- `transmute_to_bytes_vec` of `to_bytes.rs`: reuse the allocation as a
byte vector; the contents are the concatenated bit patterns of the
elements (of byte length `len * S` whenever every element is `S` bytes
wide, matching `len = from.len() * size_of::<T>()`), and
`capacity = from.capacity() * size_of::<T>()`. -/
def transmute_to_bytes_vec (S : Nat) (v : RustVec Bytes) : RustVec Nat :=
  ⟨v.ptr, v.data.flatten, v.cap * S⟩

/-- `check_alignment_ptr` of `align.rs`, at the address level:
`offset = ptr as usize % align_of::<U>()`; if positive, report
`size_of::<U>() - offset` bytes to remove, else aligned.  `S` is
`size_of::<U>()`, `A` is `align_of::<U>()`. -/
def check_alignment_ptr (S A addr : Nat) : Except UnalignedError Unit :=
  let offset := addr % A
  if offset > 0 then .error ⟨S - offset⟩ else .ok ()

/-- `check_alignment` of `align.rs`: delegates to `check_alignment_ptr`
on the slice's start address. -/
def check_alignment (S A addr : Nat) : Except UnalignedError Unit :=
  check_alignment_ptr S A addr

/-- `check_align` of `util.rs`: `align_offset = addr % align_of::<T>()`;
if nonzero, `Error::Unaligned` with offset
`align_of::<T>() - align_offset`, else aligned.  `A` is
`align_of::<T>()`. -/
def check_align (A addr : Nat) : Except Error Unit :=
  let align_offset := addr % A
  if align_offset ≠ 0 then .error (.Unaligned (A - align_offset)) else .ok ()

/-- The results of `check_align` and `check_alignment_ptr` agree at every
address, comparing acceptance and the carried discard offsets. -/
def errOffset : Except Error Unit → Option Nat
  | .error (.Unaligned o) => some o
  | .error _ => some 0
  | .ok _ => none

/-- Discard offset carried by an `align.rs` alignment-check result. -/
def errOffsetA : Except UnalignedError Unit → Option Nat
  | .error e => some e.offset
  | .ok _ => none

/-- The two alignment checkers of the crate coincide (acceptance and
carried discard offsets) at every start address, for element size `S` and
alignment `A`. -/
def alignErrorsCoincide (S A : Nat) : Prop :=
  ∀ addr : Nat, errOffset (check_align A addr) = errOffsetA (check_alignment S A addr)

/-- `designalise_f32` of `util.rs`, on the 32-bit pattern of the float:
if the exponent bits are all ones and the fraction is nonzero (a NaN),
set the quiet bit. -/
def designalise_f32 (f : Nat) : Nat :=
  if f &&& 0x7F800000 = 0x7F800000 ∧ f &&& 0x007FFFFF ≠ 0 then f ||| 0x00400000 else f

/-- `designalise_f64` of `util.rs`, on the 64-bit pattern of the float. -/
def designalise_f64 (f : Nat) : Nat :=
  if f &&& 0x7FF0000000000000 = 0x7FF0000000000000 ∧ f &&& 0x000FFFFFFFFFFFFF ≠ 0 then
    f ||| 0x0001000000000000
  else f

/-- A 32-bit pattern is a signaling NaN: exponent all ones, fraction
nonzero, quiet bit clear. -/
def isSignalingNaN32 (f : Nat) : Prop :=
  f &&& 0x7F800000 = 0x7F800000 ∧ f &&& 0x007FFFFF ≠ 0 ∧ f &&& 0x00400000 = 0

/-- A 64-bit pattern is an IEEE binary64 signaling NaN: exponent all
ones, fraction nonzero, quiet bit — the highest fraction bit, bit 51,
`0x0008000000000000` — clear. -/
def isSignalingNaN64 (f : Nat) : Prop :=
  f &&& 0x7FF0000000000000 = 0x7FF0000000000000 ∧ f &&& 0x000FFFFFFFFFFFFF ≠ 0 ∧
    f &&& 0x0008000000000000 = 0

/-- A 64-bit NaN pattern whose bit 48 is clear.  Bit 48,
`0x0001000000000000`, is the bit that `designalise_f64`'s `QNAN_MASK`
sets; it is *not* the IEEE binary64 quiet bit (bit 51), so ruling this
out is strictly weaker than ruling out `isSignalingNaN64`. -/
def isNaN64Bit48Clear (f : Nat) : Prop :=
  f &&& 0x7FF0000000000000 = 0x7FF0000000000000 ∧ f &&& 0x000FFFFFFFFFFFFF ≠ 0 ∧
    f &&& 0x0001000000000000 = 0

/- ### Helper lemmas about `chunksOf` -/

theorem chunksOfAux_length (S : Nat) :
    ∀ (fuel : Nat) (l : Bytes), l.length ≤ fuel →
      (chunksOfAux S fuel l).length = l.length / S := by
  intro fuel
  induction fuel with
  | zero =>
    intro l hl
    have h0 : l.length = 0 := Nat.le_zero.mp hl
    simp [chunksOfAux, h0]
  | succ n ih =>
    intro l hl
    simp only [chunksOfAux]
    split
    case isTrue h =>
      have hdrop : (l.drop S).length = l.length - S := List.length_drop _ _
      rw [List.length_cons, ih (l.drop S) (by omega), hdrop]
      conv_rhs => rw [Nat.div_eq]
      rw [if_pos h]
    case isFalse h =>
      rw [List.length_nil]
      conv_rhs => rw [Nat.div_eq]
      rw [if_neg h]

theorem chunksOf_length (S : Nat) (l : Bytes) :
    (chunksOf S l).length = l.length / S :=
  chunksOfAux_length S l.length l (Nat.le_refl _)

theorem take_append_take_drop (S m : Nat) (l : Bytes) :
    l.take S ++ (l.drop S).take m = l.take (S + m) := by
  rw [List.take_drop]
  have h1 : l.take S = (l.take (S + m)).take S := by
    rw [List.take_take]
    congr 1
    omega
  rw [h1]
  exact List.take_append_drop S (l.take (S + m))

theorem chunksOfAux_flatten (S : Nat) :
    ∀ (fuel : Nat) (l : Bytes), l.length ≤ fuel →
      (chunksOfAux S fuel l).flatten = l.take (l.length / S * S) := by
  intro fuel
  induction fuel with
  | zero =>
    intro l hl
    have h0 : l.length = 0 := Nat.le_zero.mp hl
    simp [chunksOfAux, h0]
  | succ n ih =>
    intro l hl
    simp only [chunksOfAux]
    split
    case isTrue h =>
      have hdrop : (l.drop S).length = l.length - S := List.length_drop _ _
      rw [List.flatten_cons, ih (l.drop S) (by omega), hdrop]
      rw [take_append_take_drop]
      congr 1
      have hdiv : l.length / S = (l.length - S) / S + 1 := by
        conv_lhs => rw [Nat.div_eq]
        rw [if_pos h]
      rw [hdiv]
      ring
    case isFalse h =>
      rw [List.flatten_nil]
      have hdiv : l.length / S = 0 := by
        conv_lhs => rw [Nat.div_eq]
        rw [if_neg h]
      rw [hdiv, Nat.zero_mul, List.take_zero]

theorem chunksOf_flatten (S : Nat) (l : Bytes) :
    (chunksOf S l).flatten = l.take (l.length / S * S) :=
  chunksOfAux_flatten S l.length l (Nat.le_refl _)

/- ### Helper lemmas about bit operations -/

theorem lor_eq_zero_left {a b : Nat} (h : a ||| b = 0) : a = 0 := by
  apply Nat.eq_of_testBit_eq
  intro i
  have hbit := congrArg (fun n => n.testBit i) h
  simp only [Nat.testBit_or, Nat.zero_testBit, Bool.or_eq_false_iff] at hbit
  simp [hbit.1]

theorem lor_eq_zero_right {a b : Nat} (h : a ||| b = 0) : b = 0 :=
  lor_eq_zero_left (by rw [Nat.or_comm]; exact h)

theorem designalise_step (f E F Q : Nat) (hQE : Q &&& E = 0) (hQne : Q ≠ 0)
    (h : f &&& E = E ∧ f &&& F ≠ 0) :
    ((f ||| Q) &&& E = E) ∧ ((f ||| Q) &&& F ≠ 0) ∧ ((f ||| Q) &&& Q ≠ 0) := by
  refine ⟨?_, ?_, ?_⟩
  · rw [Nat.and_distrib_right, h.1, hQE, Nat.or_zero]
  · rw [Nat.and_distrib_right]
    intro hc
    exact h.2 (lor_eq_zero_left hc)
  · rw [Nat.and_distrib_right, Nat.and_self]
    intro hc
    exact hQne (lor_eq_zero_right hc)

theorem designalise_f32_core (f : Nat) :
    designalise_f32 (designalise_f32 f) = designalise_f32 f ∧
    ¬ isSignalingNaN32 (designalise_f32 f) := by
  unfold designalise_f32 isSignalingNaN32
  by_cases h : f &&& 0x7F800000 = 0x7F800000 ∧ f &&& 0x007FFFFF ≠ 0
  · rw [if_pos h]
    have hs := designalise_step f 0x7F800000 0x007FFFFF 0x00400000 (by decide) (by decide) h
    rw [if_pos ⟨hs.1, hs.2.1⟩]
    refine ⟨by rw [Nat.or_assoc, Nat.or_self], ?_⟩
    intro hsn
    exact hs.2.2 hsn.2.2
  · rw [if_neg h, if_neg h]
    refine ⟨rfl, ?_⟩
    intro hsn
    exact h ⟨hsn.1, hsn.2.1⟩

theorem designalise_f64_core (f : Nat) :
    designalise_f64 (designalise_f64 f) = designalise_f64 f ∧
    ¬ isNaN64Bit48Clear (designalise_f64 f) := by
  unfold designalise_f64 isNaN64Bit48Clear
  by_cases h : f &&& 0x7FF0000000000000 = 0x7FF0000000000000 ∧ f &&& 0x000FFFFFFFFFFFFF ≠ 0
  · rw [if_pos h]
    have hs := designalise_step f 0x7FF0000000000000 0x000FFFFFFFFFFFFF 0x0001000000000000
      (by decide) (by decide) h
    rw [if_pos ⟨hs.1, hs.2.1⟩]
    refine ⟨by rw [Nat.or_assoc, Nat.or_self], ?_⟩
    intro hsn
    exact hs.2.2 hsn.2.2
  · rw [if_neg h, if_neg h]
    refine ⟨rfl, ?_⟩
    intro hsn
    exact h ⟨hsn.1, hsn.2.1⟩

/- ### Claim theorems -/

/-- C3: for every byte slice of length `L` and element size `S > 0`,
`transmute_many_permissive` returns a slice of length `⌊L/S⌋` whose
underlying bytes are exactly the first `⌊L/S⌋*S` bytes of the input. -/
theorem transmute_many_permissive_truncation (S : Nat) (bytes : Bytes) (hS : 0 < S) :
    (transmute_many_permissive S bytes).length = bytes.length / S ∧
    (transmute_many_permissive S bytes).flatten = bytes.take (bytes.length / S * S) := by
  have h : transmute_many_permissive S bytes = chunksOf S bytes := rfl
  rw [h]
  exact ⟨chunksOf_length S bytes, chunksOf_flatten S bytes⟩

/-- Witness for C3 at `S = 2` on a 5-byte input. -/
theorem transmute_many_permissive_truncation_witness :
    (0 : Nat) < 2 ∧
    (transmute_many_permissive 2 [10, 20, 30, 40, 50]).length = 5 / 2 ∧
    (transmute_many_permissive 2 [10, 20, 30, 40, 50]).flatten =
      [10, 20, 30, 40, 50].take (5 / 2 * 2) :=
  ⟨by decide, transmute_many_permissive_truncation 2 [10, 20, 30, 40, 50] (by decide)⟩

/-- C6: the permissive guard always accepts, so `transmute_many_permissive`
and `transmute_vec_permissive` never take their error branch (the `expect`
is unreachable): the guarded operations return `Ok` and the permissive
wrappers return the `Ok` payload. -/
theorem permissive_never_fails (S : Nat) (bytes : Bytes) (b : RustVec Nat) (hS : 0 < S) :
    PermissiveGuard.check S bytes.length = .ok () ∧
    transmute_many S PermissiveGuard.check bytes = .ok (chunksOf S bytes) ∧
    transmute_vec S PermissiveGuard.check b = .ok ⟨b.ptr, chunksOf S b.data, b.cap / S⟩ ∧
    transmute_many_permissive S bytes = chunksOf S bytes ∧
    transmute_vec_permissive S b = ⟨b.ptr, chunksOf S b.data, b.cap / S⟩ :=
  ⟨rfl, rfl, rfl, rfl, rfl⟩

/-- Witness for C6 at `S = 2` on concrete buffers. -/
theorem permissive_never_fails_witness :
    (0 : Nat) < 2 ∧
    PermissiveGuard.check 2 ([1, 2, 3] : Bytes).length = .ok () ∧
    transmute_many 2 PermissiveGuard.check [1, 2, 3] = .ok (chunksOf 2 [1, 2, 3]) ∧
    transmute_vec 2 PermissiveGuard.check ⟨7, [1, 2, 3], 5⟩ =
      .ok ⟨7, chunksOf 2 [1, 2, 3], 5 / 2⟩ ∧
    transmute_many_permissive 2 [1, 2, 3] = chunksOf 2 [1, 2, 3] ∧
    transmute_vec_permissive 2 ⟨7, [1, 2, 3], 5⟩ = ⟨7, chunksOf 2 [1, 2, 3], 5 / 2⟩ :=
  ⟨by decide, permissive_never_fails 2 [1, 2, 3] ⟨7, [1, 2, 3], 5⟩ (by decide)⟩

/-- C7: for every POD value `v` of size `S`, converting `v` to its bytes
with `transmute_one_to_bytes` and reading them back with `from_bytes` or
`from_bytes_pedantic` returns `Ok` of a bit-identical value. -/
theorem transmute_one_to_bytes_roundtrip (S : Nat) (v : Bytes) (hv : v.length = S) :
    from_bytes S (transmute_one_to_bytes v) = .ok v ∧
    from_bytes_pedantic S (transmute_one_to_bytes v) = .ok v := by
  have h1 : SingleManyGuard.check S v.length = .ok () := by
    unfold SingleManyGuard.check
    rw [hv, if_neg (Nat.lt_irrefl S)]
  have h2 : SingleValueGuard.check S v.length = .ok () := by
    unfold SingleValueGuard.check
    rw [hv, if_neg (Nat.lt_irrefl S), if_neg (Nat.lt_irrefl S)]
  have htake : v.take S = v := by
    rw [← hv]
    exact List.take_length v
  constructor
  · show from_bytes S v = .ok v
    unfold from_bytes
    rw [h1, htake]
  · show from_bytes_pedantic S v = .ok v
    unfold from_bytes_pedantic
    rw [h2, htake]

/-- Witness for C7 at `S = 4` on a concrete bit pattern. -/
theorem transmute_one_to_bytes_roundtrip_witness :
    ([0x67, 0x45, 0x23, 0x01] : Bytes).length = 4 ∧
    from_bytes 4 (transmute_one_to_bytes [0x67, 0x45, 0x23, 0x01]) =
      .ok [0x67, 0x45, 0x23, 0x01] ∧
    from_bytes_pedantic 4 (transmute_one_to_bytes [0x67, 0x45, 0x23, 0x01]) =
      .ok [0x67, 0x45, 0x23, 0x01] :=
  ⟨by decide, transmute_one_to_bytes_roundtrip 4 [0x67, 0x45, 0x23, 0x01] (by decide)⟩

/-- C2: for a positive element size `S` and an owned byte vector, if the
guard accepts the byte length then `transmute_vec` returns `Ok` of a
vector with length `len / S` and capacity `cap / S` over the same
allocation; if the guard rejects, its error is returned unchanged. -/
theorem transmute_vec_spec (S : Nat) (check : Nat → Nat → Except Error Unit)
    (b : RustVec Nat) (hS : 0 < S) :
    (∀ e, check S b.data.length = .error e → transmute_vec S check b = .error e) ∧
    (check S b.data.length = .ok () →
      ∃ v, transmute_vec S check b = .ok v ∧ v.ptr = b.ptr ∧
        v.data.length = b.data.length / S ∧ v.cap = b.cap / S) := by
  constructor
  · intro e he
    unfold transmute_vec
    rw [he]
  · intro hok
    refine ⟨⟨b.ptr, chunksOf S b.data, b.cap / S⟩, ?_, rfl, ?_, rfl⟩
    · unfold transmute_vec
      rw [hok]
    · exact chunksOf_length S b.data

/-- Witness for C2 at `S = 2` with the single-many guard on a 3-byte
vector of capacity 4. -/
theorem transmute_vec_spec_witness :
    (0 : Nat) < 2 ∧
    ((∀ e, SingleManyGuard.check 2 ([9, 9, 9] : Bytes).length = .error e →
        transmute_vec 2 SingleManyGuard.check ⟨3, [9, 9, 9], 4⟩ = .error e) ∧
      (SingleManyGuard.check 2 ([9, 9, 9] : Bytes).length = .ok () →
        ∃ v, transmute_vec 2 SingleManyGuard.check ⟨3, [9, 9, 9], 4⟩ = .ok v ∧
          v.ptr = 3 ∧ v.data.length = 3 / 2 ∧ v.cap = 4 / 2)) :=
  ⟨by decide, transmute_vec_spec 2 SingleManyGuard.check ⟨3, [9, 9, 9], 4⟩ (by decide)⟩

/-- C1: for a positive element size `S`, an owned byte vector of length
`4*S` and capacity `6*S` accepted by the guard transmutes to an owned
typed vector of length 4 and capacity 6 over the same allocation, and
transmuting that back to bytes gives length `4*S`, capacity `6*S`, and
contents byte-identical to the original. -/
theorem transmute_vec_owned_roundtrip (S : Nat) (check : Nat → Nat → Except Error Unit)
    (b : RustVec Nat) (hS : 0 < S) (hlen : b.data.length = 4 * S) (hcap : b.cap = 6 * S)
    (hok : check S b.data.length = .ok ()) :
    ∃ v, transmute_vec S check b = .ok v ∧
      v.data.length = 4 ∧ v.cap = 6 ∧ v.ptr = b.ptr ∧
      (transmute_to_bytes_vec S v).ptr = b.ptr ∧
      (transmute_to_bytes_vec S v).data = b.data ∧
      (transmute_to_bytes_vec S v).data.length = 4 * S ∧
      (transmute_to_bytes_vec S v).cap = 6 * S := by
  have hdata : (chunksOf S b.data).flatten = b.data := by
    rw [chunksOf_flatten, hlen, Nat.mul_div_cancel 4 hS, ← hlen]
    exact List.take_length _
  refine ⟨⟨b.ptr, chunksOf S b.data, b.cap / S⟩, ?_, ?_, ?_, rfl, rfl, ?_, ?_, ?_⟩
  · unfold transmute_vec
    rw [hok]
  · rw [chunksOf_length, hlen, Nat.mul_div_cancel 4 hS]
  · show b.cap / S = 6
    rw [hcap, Nat.mul_div_cancel 6 hS]
  · exact hdata
  · show (chunksOf S b.data).flatten.length = 4 * S
    rw [hdata, hlen]
  · show b.cap / S * S = 6 * S
    rw [hcap, Nat.mul_div_cancel 6 hS]

/-- Witness for C1 at `S = 2` with the permissive guard on an 8-byte
vector of capacity 12. -/
theorem transmute_vec_owned_roundtrip_witness :
    (0 : Nat) < 2 ∧
    ([1, 2, 3, 4, 5, 6, 7, 8] : Bytes).length = 4 * 2 ∧
    (12 : Nat) = 6 * 2 ∧
    (∃ v, transmute_vec 2 PermissiveGuard.check ⟨100, [1, 2, 3, 4, 5, 6, 7, 8], 12⟩ = .ok v ∧
      v.data.length = 4 ∧ v.cap = 6 ∧ v.ptr = 100 ∧
      (transmute_to_bytes_vec 2 v).ptr = 100 ∧
      (transmute_to_bytes_vec 2 v).data = [1, 2, 3, 4, 5, 6, 7, 8] ∧
      (transmute_to_bytes_vec 2 v).data.length = 4 * 2 ∧
      (transmute_to_bytes_vec 2 v).cap = 6 * 2) :=
  ⟨by decide, by decide, by decide,
   transmute_vec_owned_roundtrip 2 PermissiveGuard.check ⟨100, [1, 2, 3, 4, 5, 6, 7, 8], 12⟩
     (by decide) (by decide) (by decide) rfl⟩

/-- C9: round-tripping an owned byte vector through `transmute_vec` and
`transmute_to_bytes_vec` yields byte capacity `⌊cap/S⌋*S`; the original
capacity is preserved exactly when `S` divides it. -/
theorem transmute_vec_roundtrip_capacity (S : Nat) (check : Nat → Nat → Except Error Unit)
    (b : RustVec Nat) (hS : 0 < S) (hok : check S b.data.length = .ok ()) :
    ∃ v, transmute_vec S check b = .ok v ∧
      (transmute_to_bytes_vec S v).cap = b.cap / S * S ∧
      ((transmute_to_bytes_vec S v).cap = b.cap ↔ S ∣ b.cap) := by
  refine ⟨⟨b.ptr, chunksOf S b.data, b.cap / S⟩, ?_, rfl, ?_⟩
  · unfold transmute_vec
    rw [hok]
  · show b.cap / S * S = b.cap ↔ S ∣ b.cap
    constructor
    · intro h
      refine ⟨b.cap / S, ?_⟩
      conv_lhs => rw [← h]
      exact Nat.mul_comm _ _
    · intro h
      exact Nat.div_mul_cancel h

/-- Witness for C9 at `S = 2` on a 4-byte vector of odd capacity 5, where
the capacity round-trips to 4 and is not preserved. -/
theorem transmute_vec_roundtrip_capacity_witness :
    (0 : Nat) < 2 ∧
    (∃ v, transmute_vec 2 PermissiveGuard.check ⟨8, [1, 2, 3, 4], 5⟩ = .ok v ∧
      (transmute_to_bytes_vec 2 v).cap = 5 / 2 * 2 ∧
      ((transmute_to_bytes_vec 2 v).cap = 5 ↔ 2 ∣ 5)) :=
  ⟨by decide,
   transmute_vec_roundtrip_capacity 2 PermissiveGuard.check ⟨8, [1, 2, 3, 4], 5⟩ (by decide) rfl⟩

/-- Shared helper: behaviour of `check_alignment_ptr` for a type of
positive size `S` that is a multiple of its alignment `A`. -/
theorem check_alignment_ptr_spec (S A addr : Nat) (hA : 0 < A) (hS : 0 < S) (hdvd : A ∣ S) :
    (addr % A = 0 → check_alignment_ptr S A addr = .ok ()) ∧
    (addr % A ≠ 0 → check_alignment_ptr S A addr = .error ⟨S - addr % A⟩ ∧
      (addr + (S - addr % A)) % A = 0) := by
  constructor
  · intro h0
    simp [check_alignment_ptr, h0]
  · intro hne
    have hkA : addr % A < A := Nat.mod_lt addr hA
    have hAS : A ≤ S := Nat.le_of_dvd hS hdvd
    obtain ⟨c, hc⟩ := hdvd
    constructor
    · simp [check_alignment_ptr, Nat.pos_of_ne_zero hne]
    · have hq := Nat.div_add_mod addr A
      have hrw : addr + (S - addr % A) = A * (addr / A + c) := by
        subst hc
        rw [Nat.mul_add]
        generalize A * (addr / A) = t at hq ⊢
        generalize hu : A * c = u at hAS ⊢
        omega
      rw [hrw]
      exact Nat.mul_mod_right A _

/-- C4: for a type of size `S`, alignment `A` dividing `S`, and address
with `addr % A = k`: if `k = 0` the check reports aligned; if `k > 0` it
reports an `UnalignedError` with discard count `S - k`, and re-checking
the address `addr + (S - k)` reports aligned.  (`S` and `A` are positive,
as are size and alignment of every Rust type this applies to.) -/
theorem check_alignment_offset_correct (S A addr k : Nat) (hA : 0 < A) (hS : 0 < S)
    (hdvd : A ∣ S) (hk : addr % A = k) :
    (k = 0 → check_alignment S A addr = .ok ()) ∧
    (0 < k → check_alignment S A addr = .error ⟨S - k⟩ ∧
      check_alignment S A (addr + (S - k)) = .ok ()) := by
  subst hk
  have hspec := check_alignment_ptr_spec S A addr hA hS hdvd
  constructor
  · intro h0
    exact hspec.1 h0
  · intro hpos
    have hne : addr % A ≠ 0 := by omega
    obtain ⟨herr, hmod⟩ := hspec.2 hne
    exact ⟨herr, (check_alignment_ptr_spec S A (addr + (S - addr % A)) hA hS hdvd).1 hmod⟩

/-- Witness for C4 at `S = 8`, `A = 4`, `addr = 5` (so `k = 1`): the
check reports discard count 7 and the address 12 is aligned. -/
theorem check_alignment_offset_correct_witness :
    (0 : Nat) < 4 ∧ (0 : Nat) < 8 ∧ (4 : Nat) ∣ 8 ∧ 5 % 4 = 1 ∧
    ((1 = 0 → check_alignment 8 4 5 = .ok ()) ∧
      (0 < 1 → check_alignment 8 4 5 = .error ⟨8 - 1⟩ ∧
        check_alignment 8 4 (5 + (8 - 1)) = .ok ())) :=
  ⟨by decide, by decide, ⟨2, rfl⟩, by decide,
   check_alignment_offset_correct 8 4 5 1 (by decide) (by decide) ⟨2, rfl⟩ (by decide)⟩

/-- C5 counterexample: for `U = (u32, u32)` (size 8, alignment 4) at
address 1, the check carries discard count 7, yet 3 < 7 already achieves
alignment — the carried count is not the smallest value that aligns the
address. -/
theorem check_alignment_discard_not_minimal :
    check_alignment 8 4 1 = .error ⟨7⟩ ∧ (1 + 3) % 4 = 0 ∧ 3 < 7 := by decide

/-- C5 amended: for an unaligned address the carried discard count is
exactly `size_of::<U>() - addr % align_of::<U>()`; it makes the shifted
address aligned, but is the smallest such value only when size equals
alignment. -/
theorem check_alignment_discard_exact (S A addr : Nat) (hA : 0 < A) (hS : 0 < S)
    (hdvd : A ∣ S) (hmis : addr % A ≠ 0) :
    check_alignment S A addr = .error ⟨S - addr % A⟩ ∧
    (addr + (S - addr % A)) % A = 0 ∧
    (S = A → ∀ N, (addr + N) % A = 0 → S - addr % A ≤ N) := by
  obtain ⟨herr, hmod⟩ := (check_alignment_ptr_spec S A addr hA hS hdvd).2 hmis
  refine ⟨herr, hmod, ?_⟩
  intro hSA N hN
  by_contra hlt
  push_neg at hlt
  have hkA : addr % A < A := Nat.mod_lt addr hA
  rw [Nat.add_mod] at hN
  have hNA : N % A = N := Nat.mod_eq_of_lt (by omega)
  rw [hNA] at hN
  have hsum : (addr % A + N) % A = addr % A + N := Nat.mod_eq_of_lt (by omega)
  omega

/-- Witness for C5 (amended) at `S = 8`, `A = 4`, `addr = 5`. -/
theorem check_alignment_discard_exact_witness :
    (0 : Nat) < 4 ∧ (0 : Nat) < 8 ∧ (4 : Nat) ∣ 8 ∧ 5 % 4 ≠ 0 ∧
    (check_alignment 8 4 5 = .error ⟨8 - 5 % 4⟩ ∧
      (5 + (8 - 5 % 4)) % 4 = 0 ∧
      (8 = 4 → ∀ N, (5 + N) % 4 = 0 → 8 - 5 % 4 ≤ N)) :=
  ⟨by decide, by decide, ⟨2, rfl⟩, by decide,
   check_alignment_discard_exact 8 4 5 (by decide) (by decide) ⟨2, rfl⟩ (by decide)⟩

/-- C8 counterexample: for `U = [u8; 2]` (size 2, alignment 1) the two
checkers' results coincide at every address (both always accept), yet
size and alignment differ — coincidence does not require them equal. -/
theorem check_align_agreement_ce : alignErrorsCoincide 2 1 ∧ (2 : Nat) ≠ 1 := by
  constructor
  · intro addr
    have h : addr % 1 = 0 := Nat.mod_one addr
    simp [check_align, check_alignment, check_alignment_ptr, errOffset, errOffsetA, h]
  · decide

/-- C8 amended: both checkers accept exactly the addresses that are
multiples of `A`; on rejection `check_align` carries `A - k` while
`check_alignment` carries `S - k`; their results coincide at every
address if and only if `S = A` or `A = 1`. -/
theorem check_align_vs_check_alignment (S A : Nat) (hA : 0 < A) :
    (∀ addr, (check_align A addr = .ok () ↔ addr % A = 0) ∧
      (check_alignment S A addr = .ok () ↔ addr % A = 0)) ∧
    (∀ addr, addr % A ≠ 0 →
      check_align A addr = .error (.Unaligned (A - addr % A)) ∧
      check_alignment S A addr = .error ⟨S - addr % A⟩) ∧
    (alignErrorsCoincide S A ↔ S = A ∨ A = 1) := by
  have hok : ∀ addr, (check_align A addr = .ok () ↔ addr % A = 0) ∧
      (check_alignment S A addr = .ok () ↔ addr % A = 0) := by
    intro addr
    constructor
    · unfold check_align
      by_cases h : addr % A = 0 <;> simp [h]
    · unfold check_alignment check_alignment_ptr
      by_cases h : addr % A = 0 <;> simp [h, Nat.pos_of_ne_zero]
  have herr : ∀ addr, addr % A ≠ 0 →
      check_align A addr = .error (.Unaligned (A - addr % A)) ∧
      check_alignment S A addr = .error ⟨S - addr % A⟩ := by
    intro addr h
    constructor
    · simp [check_align, h]
    · simp [check_alignment, check_alignment_ptr, Nat.pos_of_ne_zero h]
  refine ⟨hok, herr, ?_, ?_⟩
  · intro hco
    by_cases hA1 : A = 1
    · exact Or.inr hA1
    · left
      have h1A : (1 : Nat) % A = 1 := Nat.mod_eq_of_lt (by omega)
      have h1 := hco 1
      obtain ⟨e1, e2⟩ := herr 1 (by rw [h1A]; exact Nat.one_ne_zero)
      rw [e1, e2] at h1
      simp only [errOffset, errOffsetA, Option.some_inj] at h1
      rw [h1A] at h1
      omega
  · intro hor addr
    rcases hor with rfl | rfl
    · by_cases h : addr % S = 0
      · rw [((hok addr).1.mpr h), ((hok addr).2.mpr h)]
        rfl
      · obtain ⟨e1, e2⟩ := herr addr h
        rw [e1, e2]
        rfl
    · have h : addr % 1 = 0 := Nat.mod_one addr
      rw [((hok addr).1.mpr h), ((hok addr).2.mpr h)]
      rfl

/-- Witness for C8 (amended) at `S = 4`, `A = 4`. -/
theorem check_align_vs_check_alignment_witness :
    (0 : Nat) < 4 ∧
    ((∀ addr, (check_align 4 addr = .ok () ↔ addr % 4 = 0) ∧
        (check_alignment 4 4 addr = .ok () ↔ addr % 4 = 0)) ∧
      (∀ addr, addr % 4 ≠ 0 →
        check_align 4 addr = .error (.Unaligned (4 - addr % 4)) ∧
        check_alignment 4 4 addr = .error ⟨4 - addr % 4⟩) ∧
      (alignErrorsCoincide 4 4 ↔ 4 = 4 ∨ 4 = 1)) :=
  ⟨by decide, check_align_vs_check_alignment 4 4 (by decide)⟩

/-- C10 counterexample: `designalise_f64` maps the signaling NaN pattern
`0x7FF0000000000001` to `0x7FF1000000000001`, which still has the
exponent all ones, a nonzero fraction, and the IEEE binary64 quiet bit
(bit 51) clear — the output is still a signaling NaN, because the code's
`QNAN_MASK` sets bit 48 rather than the highest fraction bit its comment
promises. -/
theorem designalise_f64_output_still_signaling :
    designalise_f64 0x7FF0000000000001 = 0x7FF1000000000001 ∧
    isSignalingNaN64 (designalise_f64 0x7FF0000000000001) := by
  unfold designalise_f64 isSignalingNaN64
  decide

/-- C10 (amended): `designalise_f32` and `designalise_f64` are idempotent
at the bit-pattern level, and `designalise_f32`'s output is never a
signaling NaN (exponent all ones, fraction nonzero, quiet bit 22 clear);
`designalise_f64` only guarantees that no output NaN has bit 48 — its
`QNAN_MASK`, which is not the binary64 quiet bit 51 — clear, and its
output can remain an IEEE signaling NaN, so for the f64 code idempotence
is not equivalent to never producing a signaling NaN. -/
theorem designalise_idempotent_quieting (f g : Nat) :
    designalise_f32 (designalise_f32 f) = designalise_f32 f ∧
    ¬ isSignalingNaN32 (designalise_f32 f) ∧
    designalise_f64 (designalise_f64 g) = designalise_f64 g ∧
    ¬ isNaN64Bit48Clear (designalise_f64 g) ∧
    isSignalingNaN64 (designalise_f64 0x7FF0000000000001) :=
  ⟨(designalise_f32_core f).1, (designalise_f32_core f).2,
   (designalise_f64_core g).1, (designalise_f64_core g).2,
   by unfold designalise_f64 isSignalingNaN64; decide⟩

end SafeTransmute
